import Mathlib

/-!
Verification development for the ACI (Actuaries Climate Index) repository.

The repository computes a composite climate index from five hazard signals:
temperature extremes (T90/T10), precipitation, drought (consecutive dry
days), wind-power exceedance and sea level, each standardized against a
reference period and merged into a monthly composite table.

We shallowly embed the relevant source functions:
- `Component.standardize_metric` (src/aci/components/component.py)
- `Component.apply_mask`          (src/aci/components/component.py)
- `DroughtComponent.max_consecutive_dry_days` and `drought_interpolate`
  (src/aci/components/drought.py)
- `WindComponent.wind_power`, `wind_thresholds`, `days_above_thresholds`,
  `wind_exceedance_frequency` (src/aci/components/wind.py)
- `TemperatureComponent.t90` (src/aci/components/temperature.py)
- `SeaLevelComponent.clean_data` / `compute_monthly_stats` / `process`
  (src/aci/sealevel.py)
- `ActuarialClimateIndex.calculate_aci` (src/aci/aci.py)

Machine floats are modelled as exact reals extended with the IEEE special
values NaN and ±infinity (`RVal`); numpy/xarray reductions skip NaN
(`skipna=True` defaults), which we reproduce in `nmean`/`nvar`/`nstd`.
Where no square root or special value is involved (the composite table,
the drought counting, the interpolation, sea-level cleaning, temperature
exceedance counting) we work with exact rationals, using `Option` for the
missing-data marker, which keeps the embedding executable there.
-/

namespace AciSpec

/-- A float value: a finite real, NaN, or a signed infinity. -/
inductive RVal where
  | fin (x : ℝ)
  | nan
  | inf
  | ninf

namespace RVal

/-- True exactly on NaN. -/
def isNan : RVal → Bool
  | .nan => true
  | _ => false

/-- True exactly on the two infinities. -/
def isInf : RVal → Bool
  | .inf => true
  | .ninf => true
  | _ => false

/-- True exactly on finite values. -/
def isFin : RVal → Bool
  | .fin _ => true
  | _ => false

/-- IEEE negation. -/
def neg : RVal → RVal
  | .fin x => .fin (-x)
  | .nan => .nan
  | .inf => .ninf
  | .ninf => .inf

/-- IEEE addition (NaN propagates; ∞ + (−∞) is NaN). -/
def add : RVal → RVal → RVal
  | .nan, _ => .nan
  | _, .nan => .nan
  | .inf, .ninf => .nan
  | .ninf, .inf => .nan
  | .inf, _ => .inf
  | _, .inf => .inf
  | .ninf, _ => .ninf
  | _, .ninf => .ninf
  | .fin a, .fin b => .fin (a + b)

/-- IEEE subtraction. -/
def sub (a b : RVal) : RVal := add a (neg b)

open Classical in
/-- IEEE multiplication (∞ · 0 is NaN, signs propagate). -/
noncomputable def mul : RVal → RVal → RVal
  | .nan, _ => .nan
  | _, .nan => .nan
  | .fin a, .fin b => .fin (a * b)
  | .inf, .fin b => if b = 0 then .nan else if 0 < b then .inf else .ninf
  | .fin a, .inf => if a = 0 then .nan else if 0 < a then .inf else .ninf
  | .ninf, .fin b => if b = 0 then .nan else if 0 < b then .ninf else .inf
  | .fin a, .ninf => if a = 0 then .nan else if 0 < a then .ninf else .inf
  | .inf, .inf => .inf
  | .inf, .ninf => .ninf
  | .ninf, .inf => .ninf
  | .ninf, .ninf => .inf

open Classical in
/-- IEEE division: 0/0 is NaN, x/0 for x ≠ 0 is a signed infinity
    (this is how numpy produces `inf` out of a zero standard deviation). -/
noncomputable def div : RVal → RVal → RVal
  | .nan, _ => .nan
  | _, .nan => .nan
  | .fin a, .fin b =>
      if b = 0 then (if a = 0 then .nan else if 0 < a then .inf else .ninf)
      else .fin (a / b)
  | .fin _, .inf => .fin 0
  | .fin _, .ninf => .fin 0
  | .inf, .fin b => if 0 ≤ b then .inf else .ninf
  | .ninf, .fin b => if 0 ≤ b then .ninf else .inf
  | .inf, .inf => .nan
  | .inf, .ninf => .nan
  | .ninf, .inf => .nan
  | .ninf, .ninf => .nan

open Classical in
/-- IEEE square root: NaN on negative inputs, NaN and +∞ pass through. -/
noncomputable def sqrt : RVal → RVal
  | .nan => .nan
  | .inf => .inf
  | .ninf => .nan
  | .fin x => if x < 0 then .nan else .fin (Real.sqrt x)

end RVal

/-- Values that are not NaN, as kept by a numpy `skipna` reduction. -/
def nonNan (l : List RVal) : List RVal := l.filter (fun v => !v.isNan)

/-- The finite values of a list, as reals. -/
def finVals (l : List RVal) : List ℝ :=
  l.filterMap (fun v => match v with | .fin x => some x | _ => none)

/-- Sum of the non-NaN values (numpy `nansum`, via IEEE addition). -/
noncomputable def nsum (l : List RVal) : RVal :=
  (nonNan l).foldr RVal.add (.fin 0)

/-- Mean skipping NaN (numpy `nanmean`): the empty case divides 0 by 0 and
    hence is NaN, exactly as numpy warns-and-returns-NaN. -/
noncomputable def nmean (l : List RVal) : RVal :=
  RVal.div (nsum l) (.fin ((nonNan l).length : ℝ))

/-- Population variance (ddof = 0, the xarray `std` default) skipping NaN:
    mean of squared deviations of the non-NaN values. -/
noncomputable def nvar (l : List RVal) : RVal :=
  nmean ((nonNan l).map (fun v => RVal.mul (RVal.sub v (nmean l)) (RVal.sub v (nmean l))))

/-- Standard deviation skipping NaN (xarray `std`, ddof = 0). -/
noncomputable def nstd (l : List RVal) : RVal := RVal.sqrt (nvar l)

/-- Arithmetic mean of a list of reals (value of `nmean` on finite
    data). -/
noncomputable def realMean (xs : List ℝ) : ℝ := xs.sum / xs.length

/-- Population variance of a list of reals (value of `nvar` on finite
    data). -/
noncomputable def realVar (xs : List ℝ) : ℝ :=
  (xs.map (fun x => (x - realMean xs) * (x - realMean xs))).sum / xs.length

/-! ## Time model and the standardization core

A monthly time stamp is a pair (year, month).  A metric series is a
time-ordered association list from stamps to float values; `xarray`'s
label-based `sel(time=slice(a, b))` is inclusive at both ends. -/

/-- A monthly time stamp: (year, month). -/
abbrev Tm := Nat × Nat

/-- Lexicographic order on (year, month) stamps. -/
def tmLe (a b : Tm) : Bool := a.1 < b.1 || (a.1 == b.1 && a.2 ≤ b.2)

/-- A metric series: one float value per time stamp. -/
abbrev Series := List (Tm × RVal)

/-- The inclusive time slice `metric.sel(time=slice(t1, t2))`. -/
def timeSlice (s : Series) (t1 t2 : Tm) : Series :=
  s.filter (fun p => tmLe t1 p.1 && tmLe p.1 t2)

/-- The values of a series falling in calendar month `m`
    (`groupby("time.month")` group for label `m`). -/
def monthVals (s : Series) (m : Nat) : List RVal :=
  (s.filter (fun p => p.1.2 == m)).map (fun p => p.2)

/-- Per-calendar-month mean over the reference slice, broadcast by month
    label (`reference.groupby("time.month").mean().sel(month=...)`). -/
noncomputable def groupMean (ref : Series) (m : Nat) : RVal := nmean (monthVals ref m)

/-- Per-calendar-month standard deviation over the reference slice,
    broadcast by month label. -/
noncomputable def groupStd (ref : Series) (m : Nat) : RVal := nstd (monthVals ref m)

/-- Embedding of `Component.standardize_metric`
    (src/aci/components/component.py, lines 141-164, `area=None` path):
    slice the metric to the reference period, group the slice by calendar
    month, compute mean and std per group, broadcast them back over the
    full series by month label, and return `(metric - mean) / std`. -/
noncomputable def standardize_metric (metric : Series) (t1 t2 : Tm) : Series :=
  let reference := timeSlice metric t1 t2
  metric.map (fun p =>
    (p.1, RVal.div (RVal.sub p.2 (groupMean reference p.1.2)) (groupStd reference p.1.2)))

/-- A two-point January metric series (10 in 2000, 20 in 2001), used as
    concrete input to the standardization core. -/
def metricEx : Series := [((2000, 1), .fin 10), ((2001, 1), .fin 20)]

/-- A series constant (5) over the 2000 reference year but 6 at the
    January 2001 study point. -/
def constMetricEx : Series := [((2000, 1), .fin 5), ((2001, 1), .fin 6)]

/-! ## The composite assembler (src/aci/aci.py, `calculate_aci`)

After each hazard is standardized and area-averaged the code holds six
monthly scalar series; it inner-merges them on the time index and adds the
`ACI` column.  We model the merged table over exact rationals. -/

/-- One row of the composite table produced by `calculate_aci`. -/
structure AciRow where
  time : Tm
  windpower : ℚ
  precipitation : ℚ
  drought : ℚ
  sea_mean : ℚ
  t90 : ℚ
  t10 : ℚ
  aci : ℚ
  deriving DecidableEq, Repr

/-- A monthly scalar series as held in each merged DataFrame column. -/
abbrev QSeries := List (Tm × ℚ)

/-- Embedding of `ActuarialClimateIndex.calculate_aci`
    (src/aci/aci.py, lines 52-112): the erosion `factor` defaults to 1
    (`factor = 1 if factor is None else factor`), the six standardized
    series are inner-merged on their time index (the chain of
    `pd.merge(..., left_index=True, right_index=True)` keeps exactly the
    stamps present in every series), and the composite column is
    `ACI = (T90 - T10 + precipitation + drought + factor*sea_mean
    + windpower) / 6`. -/
def calculate_aci (w p dr s t90s t10s : QSeries) (factor : Option ℚ) : List AciRow :=
  let f := factor.getD 1
  w.filterMap (fun wp =>
    match p.lookup wp.1, dr.lookup wp.1, s.lookup wp.1,
          t90s.lookup wp.1, t10s.lookup wp.1 with
    | some pv, some drv, some sv, some t90v, some t10v =>
        some { time := wp.1, windpower := wp.2, precipitation := pv,
               drought := drv, sea_mean := sv, t90 := t90v, t10 := t10v,
               aci := (t90v - t10v + pv + drv + f * sv + wp.2) / 6 }
    | _, _, _, _, _ => none)

/-- A one-month windpower series with value 1, used as concrete input. -/
def wEx : QSeries := [((2000, 1), 1)]

/-- A one-month precipitation series with value 1. -/
def pEx : QSeries := [((2000, 1), 1)]

/-- A one-month drought series with value 1. -/
def drEx : QSeries := [((2000, 1), 1)]

/-- A one-month sea-level series with value 1. -/
def sEx : QSeries := [((2000, 1), 1)]

/-- A one-month T90 series with value 1. -/
def t90Ex : QSeries := [((2000, 1), 1)]

/-- A one-month T10 series with value 1. -/
def t10Ex : QSeries := [((2000, 1), 1)]

/-- The composite row the assembler produces from the series above with
    the default erosion factor. -/
def rowEx : AciRow :=
  { time := (2000, 1), windpower := 1, precipitation := 1, drought := 1,
    sea_mean := 1, t90 := 1, t10 := 1, aci := 2 / 3 }

/-! ## Drought (src/aci/components/drought.py) -/

/-- A daily time stamp for the drought pipeline: (year, day index). -/
abbrev Td := Nat × Nat

/-- Group-by-day-and-sum, mirroring `resample(time='d').sum()` on a
    chronologically ordered sub-daily precipitation series: one output
    entry per distinct day, carrying the sum of that day's values. -/
def resampleDailySum (l : List (Td × ℚ)) : List (Td × ℚ) :=
  ((l.map Prod.fst).dedup).map
    (fun d => (d, ((l.filter (fun p => p.1 == d)).map Prod.snd).sum))

/-- Dry-day indicator `xr.where(precipitation_per_day < 0.001, 1, 0)`
    (drought.py line 77). -/
def dryIndicator (daily : List (Td × ℚ)) : List (Td × ℤ) :=
  daily.map (fun p => (p.1, if p.2 < 1 / 1000 then 1 else 0))

/-- Wet-day indicator `xr.where(days_below_thresholds == 0, 1, 0)`
    (drought.py line 78). -/
def wetIndicator (below : List (Td × ℤ)) : List (Td × ℤ) :=
  below.map (fun p => (p.1, if p.2 = 0 then 1 else 0))

/-- Cumulative sum along the time dimension of a keyed integer series
    (`.cumsum(dim='time')`), carrying the running total. -/
def cumsumTime : List (Td × ℤ) → ℤ → List (Td × ℤ)
  | [], _ => []
  | p :: rest, acc => (p.1, acc + p.2) :: cumsumTime rest (acc + p.2)

/-- Pointwise value of `vals.where(cond == 0).ffill(dim='time').fillna(0)`
    over a zipped (condition, value) series: keep the value where the
    condition is 0, forward-fill it elsewhere, 0 before the first kept
    value (drought.py line 80). -/
def whereFfillFillna0 : List (ℤ × ℤ) → ℤ → List ℤ
  | [], _ => []
  | (c, v) :: rest, last =>
      let kept := if c = 0 then v else last
      kept :: whereFfillFillna0 rest kept

/-- Annual maximum of a keyed integer series
    (`.resample(time='Y').max()`): one entry per distinct year. -/
def resampleYearlyMax (days : List (Td × ℤ)) : List (Nat × ℤ) :=
  ((days.map (fun p => p.1.1)).dedup).map
    (fun y => (y, ((days.filter (fun p => p.1.1 == y)).map Prod.snd).foldr max 0))

/-- Embedding of `DroughtComponent.max_consecutive_dry_days`
    (src/aci/components/drought.py, lines 58-84, mask-free path): resample
    precipitation to daily sums, build the dry and wet indicators, take
    the cumulative sum of the WET indicator, subtract its forward-filled
    value kept at days where the wet indicator is 0, and take the annual
    maximum of the difference.  (As the theorems show, this runs the
    cumulative-sum-reset construction on the wet indicator with resets at
    dry days, so the running count it maintains is of consecutive wet
    days, despite the function's name and docstring.) -/
def max_consecutive_dry_days (precip : List (Td × ℚ)) : List (Nat × ℤ) :=
  let precipitation_per_day := resampleDailySum precip
  let below := dryIndicator precipitation_per_day
  let above := wetIndicator below
  let cumsum_above := cumsumTime above 0
  let reset := whereFfillFillna0 (List.zip (above.map Prod.snd) (cumsum_above.map Prod.snd)) 0
  let days := List.zipWith (fun p r => (p.1, p.2 - r)) cumsum_above reset
  resampleYearlyMax days

/-- Modelled from the spec: the quantity the function's own name,
    docstring and spec §4.5 describe — the running count of consecutive
    DRY days (cumulative sum of the dry indicator minus its last value at
    a wet day, forward-filled), then the annual maximum. -/
def spec_max_consecutive_dry_days (precip : List (Td × ℚ)) : List (Nat × ℤ) :=
  let precipitation_per_day := resampleDailySum precip
  let below := dryIndicator precipitation_per_day
  let cumsum_below := cumsumTime below 0
  let reset := whereFfillFillna0 (List.zip (below.map Prod.snd) (cumsum_below.map Prod.snd)) 0
  let days := List.zipWith (fun p r => (p.1, p.2 - r)) cumsum_below reset
  resampleYearlyMax days

/-- A five-day single-cell daily precipitation record for the year 2000:
    three dry days, one wet day (0.002, above the 0.001 threshold), one
    dry day.  The documented maximum dry run is 3. -/
def droughtFailingInput : List (Td × ℚ) :=
  [((2000, 1), 0), ((2000, 2), 0), ((2000, 3), 0), ((2000, 4), 1 / 500), ((2000, 5), 0)]

/-- Embedding of `DroughtComponent.drought_interpolate`
    (src/aci/components/drought.py, lines 86-135): for each consecutive
    pair of yearly values (k, k+1) emit 12 monthly values weighted
    `(12 - month)/12` and `month/12` for month = 1..12, stamped in year
    k; the final year's value is repeated unchanged across its 12
    months. -/
def drought_interpolate : List (Nat × ℚ) → List ((Nat × Nat) × ℚ)
  | [] => []
  | [(y, v)] => (List.range 12).map (fun m => ((y, m + 1), v))
  | (y, v) :: (y', v') :: rest =>
      ((List.range 12).map (fun m =>
        (((y, m + 1) : Nat × Nat),
          ((12 - ((m : ℚ) + 1)) / 12) * v + (((m : ℚ) + 1) / 12) * v'))) ++
      drought_interpolate ((y', v') :: rest)

/-! ## Masking layer and error handling
    (src/aci/components/component.py, `apply_mask`) -/

/-- A spatial cell index. -/
abbrev Cell := Nat × Nat

/-- A gridded variable: one (possibly missing) value per cell. -/
abbrev Grid := List (Cell × Option ℚ)

/-- A coverage mask: fractional land/country coverage per cell. -/
abbrev Mask := List (Cell × ℚ)

/-- The Python exception raised by the embedded methods.  The source
    raises the builtin `ValueError`; `configurationError` is modelled from
    the spec's error taxonomy (spec §7 names a `ConfigurationError` for
    missing input data/mask) — no class of that name exists anywhere in
    the source, which is what the C8 theorems record. -/
inductive PyError where
  | valueError (msg : String)
  | configurationError (msg : String)
  deriving DecidableEq, Repr

/-- True exactly on the spec's `ConfigurationError`. -/
def isConfigurationError : PyError → Bool
  | .configurationError _ => true
  | _ => false

/-- The message of the `ValueError` raised by `Component.apply_mask`. -/
def dataNotLoadedMsg : String :=
  "Data not loaded. Please ensure the data and mask are loaded."

/-- Cell-wise masking (`xr.where(country_mask, value, nan)` with
    `country_mask = mask >= threshold`): cells with coverage at or above
    the threshold pass through, all others become no-data; cells absent
    from the mask align to NaN coverage, which fails the comparison. -/
def maskCells (g : Grid) (m : Mask) (threshold : ℚ) : Grid :=
  g.map (fun p =>
    match m.lookup p.1 with
    | some cov => (p.1, if threshold ≤ cov then p.2 else none)
    | none => (p.1, none))

/-- Embedding of `Component.apply_mask`
    (src/aci/components/component.py, lines 117-139): if either the data
    array or the mask is absent (`None`) the method immediately raises
    `ValueError("Data not loaded. ...")`; otherwise it returns the masked
    grid and raises nothing. -/
def apply_mask (array : Option Grid) (mask : Option Mask) (threshold : ℚ) :
    Except PyError Grid :=
  match array, mask with
  | some a, some m => .ok (maskCells a m threshold)
  | _, _ => .error (.valueError dataNotLoadedMsg)

/-- A one-cell grid holding the value 3, used as concrete input. -/
def gridEx : Grid := [((0, 0), some 3)]

/-- A one-cell mask with full coverage. -/
def maskEx : Mask := [((0, 0), 1)]

/-! ## Sea level (src/aci/sealevel.py) -/

/-- One dated row of the per-station sea-level table (after loading and
    date correction): a month stamp and one optional measurement per
    station column. -/
structure SLRow where
  time : Tm
  vals : List (Option ℚ)
  deriving DecidableEq, Repr

/-- The per-station sea-level table. -/
abbrev SLTable := List SLRow

/-- The sentinel marking missing tide-gauge measurements. -/
def sentinel : ℚ := -99999

/-- Embedding of `SeaLevelComponent.clean_data` (src/aci/sealevel.py,
    lines 133-148): `data.replace(-99999.0, np.nan)` — every cell equal
    to the sentinel becomes missing, all other cells are unchanged. -/
def clean_data (t : SLTable) : SLTable :=
  t.map (fun r =>
    { r with vals := r.vals.map (fun c => if c = some sentinel then none else c) })

/-- A comparison table with the sentinel cells dropped outright instead
    of NaN-ed; computing the baselines on it is what "sentinel values
    never influence the statistics" means. -/
def dropSentinels (t : SLTable) : SLTable :=
  t.map (fun r =>
    { r with vals := r.vals.filter (fun c => if c = some sentinel then false else true) })

/-- Mean across station columns of one row (`data.mean(axis=1)`; pandas
    skips missing cells, an all-missing row gives missing). -/
def rowMean (vals : List (Option ℚ)) : Option ℚ :=
  let xs := vals.filterMap id
  if xs.length = 0 then none else some (xs.sum / (xs.length : ℚ))

/-- The reference-period slice used by `compute_monthly_stats`
    (sealevel.py line 168): `index >= start` and strictly `index < end`. -/
def refMask (t : SLTable) (r1 r2 : Tm) : SLTable :=
  t.filter (fun r => tmLe r1 r.time && !(tmLe r2 r.time))

/-- The cross-station average series over the reference slice
    (`mean_ref = data_ref.mean(axis=1)`). -/
def meanRef (t : SLTable) (r1 r2 : Tm) : List (Tm × Option ℚ) :=
  (refMask t r1 r2).map (fun r => (r.time, rowMean r.vals))

/-- Valid values of the cross-station average in calendar month `m`
    (`mean_ref.groupby(mean_ref.index.month)` group). -/
def slMonthVals (t : SLTable) (r1 r2 : Tm) (m : Nat) : List ℚ :=
  ((meanRef t r1 r2).filter (fun p => p.1.2 == m)).filterMap (fun p => p.2)

/-- Embedding of the `"means"` branch of
    `SeaLevelComponent.compute_monthly_stats` (sealevel.py, lines
    150-180): monthly mean of the cross-station average over the
    reference slice, missing when the month has no valid row. -/
def monthly_means (t : SLTable) (r1 r2 : Tm) (m : Nat) : Option ℚ :=
  let xs := slMonthVals t r1 r2 m
  if xs.length = 0 then none else some (xs.sum / (xs.length : ℚ))

/-- Monthly sample variance of the cross-station average (pandas `std`
    uses ddof = 1, so fewer than two valid rows give missing). -/
def monthly_var (t : SLTable) (r1 r2 : Tm) (m : Nat) : Option ℚ :=
  let xs := slMonthVals t r1 r2 m
  if xs.length < 2 then none
  else some ((xs.map (fun x => (x - xs.sum / (xs.length : ℚ)) ^ 2)).sum / ((xs.length : ℚ) - 1))

/-- Embedding of the `"std"` branch of `compute_monthly_stats`: monthly
    standard deviation of the cross-station average. -/
noncomputable def monthly_std_devs (t : SLTable) (r1 r2 : Tm) (m : Nat) : Option ℝ :=
  (monthly_var t r1 r2 m).map (fun v => Real.sqrt (v : ℝ))

/-- The baseline statistics as computed inside `SeaLevelComponent.process`
    (sealevel.py, lines 228-253): `clean_data` runs before
    `compute_monthly_stats`, so both baselines are taken on the cleaned
    table. -/
noncomputable def process_baseline_stats (t : SLTable) (r1 r2 : Tm) (m : Nat) :
    Option ℚ × Option ℝ :=
  (monthly_means (clean_data t) r1 r2 m, monthly_std_devs (clean_data t) r1 r2 m)

/-- A one-row, two-station sea-level table whose first cell is the
    sentinel, used as concrete input. -/
def slEx : SLTable := [{ time := (2000, 1), vals := [some sentinel, some 5] }]

/-! ## Temperature (src/aci/components/temperature.py, `t90`) -/

/-- A daily stamp for the temperature pipeline: calendar year, month and
    day-of-year. -/
structure DayT where
  year : Nat
  month : Nat
  doy : Nat
  deriving DecidableEq, Repr

/-- A daily-extremum series (the output of `temp_extremum`): the day's
    max or min, missing where the underlying cell is masked. -/
abbrev ExtSeries := List (DayT × Option ℚ)

/-- Missing-aware float subtraction (NaN propagates). -/
def subOpt : Option ℚ → Option ℚ → Option ℚ
  | some a, some b => some (a - b)
  | _, _ => none

/-- `xr.where(diff > 0, 1, 0)`: an integer indicator which is 0 on a
    missing input because `NaN > 0` is false; it is never missing
    itself. -/
def whereGtZero : Option ℚ → ℤ
  | some x => if 0 < x then 1 else 0
  | none => 0

/-- Day-of-year-matched threshold subtraction
    (`extremum - percentile.sel(dayofyear=time_index)`,
    temperature.py lines 207-211). -/
def diffVsThreshold (ext : ExtSeries) (thr : Nat → Option ℚ) : List (DayT × Option ℚ) :=
  ext.map (fun p => (p.1, subOpt p.2 (thr p.1.doy)))

/-- The months present in a daily series, in order of appearance
    (`resample(time='m')` groups). -/
def monthsOf (l : List (DayT × ℤ)) : List Tm :=
  (l.map (fun p => (p.1.year, p.1.month))).dedup

/-- The indicator entries of one month. -/
def monthEntries (l : List (DayT × ℤ)) (ym : Tm) : List ℤ :=
  (l.filter (fun p => (p.1.year, p.1.month) == ym)).map Prod.snd

/-- Monthly `sum()/count()` of an integer indicator series
    (temperature.py lines 214-217): the indicator is integer-valued and
    never NaN, so `count` is the number of ALL days of the month, masked
    extrema included. -/
def monthlyFreq (l : List (DayT × ℤ)) : List (Tm × ℚ) :=
  (monthsOf l).map (fun ym =>
    (ym, ((monthEntries l ym).sum : ℚ) / ((monthEntries l ym).length : ℚ)))

/-- One partition's exceedance frequency as coded in
    `TemperatureComponent.t90` (tx90 / tn90): mark 1 where the daily
    extremum is strictly above the day-of-year-matched threshold,
    aggregate monthly by `sum()/count()`. -/
def halfFreqAbove (ext : ExtSeries) (thr : Nat → Option ℚ) : List (Tm × ℚ) :=
  monthlyFreq ((diffVsThreshold ext thr).map (fun p => (p.1, whereGtZero p.2)))

/-- Embedding of `TemperatureComponent.t90`
    (src/aci/components/temperature.py, lines 183-241), taking the daily
    and nightly maximum series and the two day-of-year 90th-percentile
    threshold functions (`self.percentiles`) as inputs:
    `t90 = 0.5 * (tx90 + tn90)`, the xarray addition aligning the two
    monthly series on their common months. -/
def t90 (extDay extNight : ExtSeries) (thrDay thrNight : Nat → Option ℚ) :
    List (Tm × ℚ) :=
  let tx90 := halfFreqAbove extDay thrDay
  let tn90 := halfFreqAbove extNight thrNight
  tx90.filterMap (fun p =>
    match tn90.lookup p.1 with
    | some q => some (p.1, (1 / 2 : ℚ) * (p.2 + q))
    | none => none)

/-- Count of all days of one month in an extremum series. -/
def countDays (ext : ExtSeries) (ym : Tm) : Nat :=
  (ext.filter (fun p => (p.1.year, p.1.month) == ym)).length

/-- Count of valid (non-missing) daily extrema of one month. -/
def countValid (ext : ExtSeries) (ym : Tm) : Nat :=
  (ext.filter (fun p => ((p.1.year, p.1.month) == ym) && p.2.isSome)).length

/-- Count of days of one month whose extremum is strictly above the
    day-of-year-matched threshold. -/
def countAbove (ext : ExtSeries) (thr : Nat → Option ℚ) (ym : Tm) : Nat :=
  (ext.filter (fun p =>
    ((p.1.year, p.1.month) == ym) && (whereGtZero (subOpt p.2 (thr p.1.doy)) == 1))).length

/-- Modelled from the spec: one partition's monthly exceedance frequency
    with the denominator the spec states — "(sum of 1s) / (count of valid
    observations)", i.e. days whose daily extremum is missing are
    excluded from the denominator.  The source instead divides by the
    count of all days (see `monthlyFreq`). -/
def specHalfFreqAbove (ext : ExtSeries) (thr : Nat → Option ℚ) : List (Tm × ℚ) :=
  (monthsOf ((diffVsThreshold ext thr).map (fun p => (p.1, whereGtZero p.2)))).map
    (fun ym => (ym, (countAbove ext thr ym : ℚ) / (countValid ext ym : ℚ)))

/-- Modelled from the spec: T90 with the per-partition frequencies using
    the valid-observation denominator. -/
def spec_t90 (extDay extNight : ExtSeries) (thrDay thrNight : Nat → Option ℚ) :
    List (Tm × ℚ) :=
  let tx90 := specHalfFreqAbove extDay thrDay
  let tn90 := specHalfFreqAbove extNight thrNight
  tx90.filterMap (fun p =>
    match tn90.lookup p.1 with
    | some q => some (p.1, (1 / 2 : ℚ) * (p.2 + q))
    | none => none)

/-- A two-day January 2000 daily-maximum series whose first extremum is
    missing (masked) and whose second is 10. -/
def extDayEx : ExtSeries :=
  [(⟨2000, 1, 1⟩, none), (⟨2000, 1, 2⟩, some 10)]

/-- The matching nightly-maximum series with both extrema valid. -/
def extNightEx : ExtSeries :=
  [(⟨2000, 1, 1⟩, some 10), (⟨2000, 1, 2⟩, some 10)]

/-- A constant day-of-year threshold of 5. -/
def thrEx : Nat → Option ℚ := fun _ => some 5

/-! ## Wind (src/aci/components/wind.py) -/

/-- A daily stamp for the wind pipeline: calendar year, month and
    day-of-year. -/
structure DayW where
  year : Nat
  month : Nat
  doy : Nat
  deriving DecidableEq, Repr

/-- One sub-daily wind observation: the (masked) u10 and v10 wind
    components at one time step of one day. -/
structure WindObs where
  day : DayW
  u : RVal
  v : RVal

/-- Wind speed of one observation: `np.sqrt(u10**2 + v10**2)`
    (wind.py line 71). -/
noncomputable def windSpeed (o : WindObs) : RVal :=
  RVal.sqrt (RVal.add (RVal.mul o.u o.u) (RVal.mul o.v o.v))

/-- The days of the series, in order (`resample(time='D')` groups). -/
def windDays (l : List WindObs) : List DayW := (l.map WindObs.day).dedup

/-- Daily mean wind speed (`ws.resample(time='D').mean()`,
    NaN-skipping). -/
noncomputable def dailyMeanWs (l : List WindObs) (d : DayW) : RVal :=
  nmean ((l.filter (fun o => o.day == d)).map windSpeed)

/-- Daily wind power `0.5 * rho * dailymean_ws**3` with the air-density
    constant rho = 1.23 (wind.py lines 72-74). -/
noncomputable def windPowerVal (l : List WindObs) (d : DayW) : RVal :=
  RVal.mul (.fin (0.5 * 1.23))
    (RVal.mul (dailyMeanWs l d) (RVal.mul (dailyMeanWs l d) (dailyMeanWs l d)))

/-- Embedding of `WindComponent.wind_power` (src/aci/components/wind.py,
    lines 46-82, without reference slicing): the daily wind-power
    series. -/
noncomputable def wind_power (l : List WindObs) : List (DayW × RVal) :=
  (windDays l).map (fun d => (d, windPowerVal l d))

/-- Lexicographic (year, day-of-year) order used to slice the daily
    series to the reference period. -/
def dayLe (a b : DayW) : Bool := a.year < b.year || (a.year == b.year && a.doy ≤ b.doy)

/-- The reference-period slice of the wind-power series
    (`wind_power.sel(time=slice(...))`, inclusive at both ends). -/
noncomputable def windPowerReference (l : List WindObs) (r1 r2 : DayW) : List (DayW × RVal) :=
  (wind_power l).filter (fun p => dayLe r1 p.1 && dayLe p.1 r2)

/-- Reference wind-power values at one day-of-year
    (`groupby("time.dayofyear")` group). -/
noncomputable def doyGroup (l : List WindObs) (r1 r2 : DayW) (doy : Nat) : List RVal :=
  ((windPowerReference l r1 r2).filter (fun p => p.1.doy == doy)).map Prod.snd

/-- Per-day threshold: day-of-year `mean + 1.28 * std` of the
    reference-period wind power, broadcast back over the full time index
    by day-of-year (wind.py lines 107-109). -/
noncomputable def windThresholdVal (l : List WindObs) (r1 r2 : DayW) (d : DayW) : RVal :=
  RVal.add (nmean (doyGroup l r1 r2 d.doy))
    (RVal.mul (.fin 1.28) (nstd (doyGroup l r1 r2 d.doy)))

/-- Embedding of `WindComponent.wind_thresholds`
    (src/aci/components/wind.py, lines 84-114). -/
noncomputable def wind_thresholds (l : List WindObs) (r1 r2 : DayW) : List (DayW × RVal) :=
  (windDays l).map (fun d => (d, windThresholdVal l r1 r2 d))

open Classical in
/-- `xr.where(diff < 0, 1, 0)` on floats: NaN gives 0 (the comparison is
    false), so the indicator itself is never missing. -/
noncomputable def whereNegR : RVal → ℤ
  | .fin x => if x < 0 then 1 else 0
  | .ninf => 1
  | _ => 0

/-- Embedding of `WindComponent.days_above_thresholds`
    (src/aci/components/wind.py, lines 116-142):
    `xr.where(thresholds - wind_power < 0, 1, 0)` — the strict inequality
    marks a day whose wind power exactly equals its threshold with 0. -/
noncomputable def days_above_thresholds (l : List WindObs) (r1 r2 : DayW) :
    List (DayW × ℤ) :=
  (windDays l).map (fun d =>
    (d, whereNegR (RVal.sub (windThresholdVal l r1 r2 d) (windPowerVal l d))))

/-- The indicator entries of one month of a daily wind indicator
    series. -/
def windMonthEntries (l : List (DayW × ℤ)) (ym : Tm) : List (DayW × ℤ) :=
  l.filter (fun p => (p.1.year, p.1.month) == ym)

/-- Monthly exceedance numerator (`resample(time='m').sum()`). -/
def windMonthSum (l : List (DayW × ℤ)) (ym : Tm) : ℤ :=
  ((windMonthEntries l ym).map Prod.snd).sum

/-- Monthly exceedance denominator (`resample(time='m').count()`): the
    indicator is an integer array without NaN, so this counts every day
    of the month. -/
def windMonthCount (l : List (DayW × ℤ)) (ym : Tm) : Nat :=
  (windMonthEntries l ym).length

/-- Embedding of `WindComponent.wind_exceedance_frequency`
    (src/aci/components/wind.py, lines 144-168): monthly
    `sum() / count()` of the exceedance indicator. -/
noncomputable def wind_exceedance_frequency (l : List WindObs) (r1 r2 : DayW) :
    List (Tm × ℚ) :=
  let ind := days_above_thresholds l r1 r2
  ((ind.map (fun p => (p.1.year, p.1.month))).dedup).map
    (fun ym => (ym, ((windMonthSum ind ym : ℚ) / (windMonthCount ind ym : ℚ))))

/-- A calm single-observation wind day (u10 = v10 = 0), on which the
    wind power (0) exactly equals its threshold (0 + 1.28 × 0). -/
def calmDay : DayW := { year := 2000, month := 1, doy := 1 }

/-- The one-observation wind record for `calmDay`. -/
noncomputable def calmObs : List WindObs := [{ day := calmDay, u := .fin 0, v := .fin 0 }]

/-- A one-observation wind record with u10 = 3, v10 = 4 on `calmDay`. -/
noncomputable def windObsEx : List WindObs := [{ day := calmDay, u := .fin 3, v := .fin 4 }]

/-! # Theorems -/

/-- C1 (confirmed): for every row of the composite table produced by
    `calculate_aci` with erosion factor `factor` (default 1 when absent),
    the `ACI` column equals
    `(T90 - T10 + precipitation + drought + factor*sea_mean + windpower) / 6`,
    recomputable exactly from that row's own six standardized columns. -/
theorem c1_aci_formula (w p dr s t90s t10s : QSeries) (factor : Option ℚ)
    (row : AciRow) (hrow : row ∈ calculate_aci w p dr s t90s t10s factor) :
    row.aci = (row.t90 - row.t10 + row.precipitation + row.drought
      + (factor.getD 1) * row.sea_mean + row.windpower) / 6 := by
  simp only [calculate_aci, List.mem_filterMap] at hrow
  obtain ⟨wp, -, h⟩ := hrow
  split at h
  · cases h
    rfl
  · cases h

/-- Witness for C1: on six concrete one-month series of value 1 with the
    erosion factor left at its default, the assembler emits the row with
    ACI = 2/3 and the row satisfies the formula. -/
theorem c1_aci_formula_witness :
    rowEx ∈ calculate_aci wEx pEx drEx sEx t90Ex t10Ex none ∧
    rowEx.aci = (rowEx.t90 - rowEx.t10 + rowEx.precipitation + rowEx.drought
      + ((none : Option ℚ).getD 1) * rowEx.sea_mean + rowEx.windpower) / 6 :=
  have h : rowEx ∈ calculate_aci wEx pEx drEx sEx t90Ex t10Ex none := by
    norm_num [calculate_aci, wEx, pEx, drEx, sEx, t90Ex, t10Ex, rowEx, List.lookup]
  ⟨h, c1_aci_formula wEx pEx drEx sEx t90Ex t10Ex none rowEx h⟩

/-- C4 (code bug): on the five-day input with dry days 1-3 and 5 and a
    wet day 4, `max_consecutive_dry_days` — whose own name and docstring
    promise the maximum run of consecutive DRY days, which is 3 — returns
    1, because its cumulative-sum-reset runs over the WET indicator with
    resets at dry days and therefore counts the maximum run of
    consecutive wet days.  `spec_max_consecutive_dry_days` is the same
    construction on the dry indicator and returns the documented 3. -/
theorem c4_drought_counts_wet_not_dry :
    max_consecutive_dry_days droughtFailingInput = [(2000, 1)] ∧
    spec_max_consecutive_dry_days droughtFailingInput = [(2000, 3)] := by
  norm_num [max_consecutive_dry_days, spec_max_consecutive_dry_days, resampleDailySum,
    dryIndicator, wetIndicator, cumsumTime, whereFfillFillna0, resampleYearlyMax,
    droughtFailingInput, List.dedup, List.zipWith, List.zip, List.zipWithTR,
    List.filter, List.map, List.foldr, List.pwFilter]

/-- C5 counterexample: on yearly values [10, 20] for 2000 and 2001 the
    interpolated December 2000 value is 20 (weights (12-12)/12 = 0 and
    12/12 = 1), not the (1/12)*10 + (11/12)*20 the claim states. -/
theorem c5_december_counterexample :
    (drought_interpolate [(2000, 10), (2001, 20)]).lookup (2000, 12) = some 20 ∧
    ((20 : ℚ) = (1 / 12) * 10 + (11 / 12) * 20 → False) := by
  refine ⟨?_, by norm_num⟩
  norm_num [drought_interpolate, List.range_succ, List.lookup]
  try decide

/-- C5 (corrected): for a yearly drought series, the interpolated month
    m of a non-final year k is `((12-m)/12)*value(k) + (m/12)*value(k+1)`
    — so January 2000 of [10, 20] is (11/12)*10 + (1/12)*20, and December
    2000 is (0/12)*10 + (12/12)*20 = 20 — and every month of the final
    year equals the final year's value unchanged.  The interpolated
    series lists the 12 months of the i-th input year at positions
    12*i + 0 .. 12*i + 11. -/
theorem c5_drought_interpolation (l : List (Nat × ℚ)) (i m y : Nat) (v : ℚ)
    (hm1 : 1 ≤ m) (hm : m ≤ 12) (hi : l.get? i = some (y, v)) :
    (∀ y' v', l.get? (i + 1) = some (y', v') →
      (drought_interpolate l).get? (12 * i + (m - 1)) =
        some ((y, m), ((12 - (m : ℚ)) / 12) * v + ((m : ℚ) / 12) * v')) ∧
    (l.get? (i + 1) = none →
      (drought_interpolate l).get? (12 * i + (m - 1)) = some ((y, m), v)) := by
  have hcast : ((m - 1 : ℕ) : ℚ) + 1 = (m : ℚ) := by
    have h1 : ((m - 1 : ℕ) : ℚ) = (m : ℚ) - 1 := by
      push_cast [Nat.cast_sub hm1]
      ring
    rw [h1]; ring
  have hidx : m - 1 < 12 := by omega
  induction l generalizing i with
  | nil => cases hi
  | cons a t IH =>
    obtain ⟨ay, av⟩ := a
    cases i with
    | zero =>
      rw [List.get?_cons_zero, Option.some_inj] at hi
      cases hi
      cases t with
      | nil =>
        refine ⟨fun y' v' hy' => ?_, fun _ => ?_⟩
        · cases hy'
        · simp only [drought_interpolate, Nat.mul_zero, Nat.zero_add,
            List.get?_map, List.get?_range hidx, Option.map_some',
            Option.some_inj, Prod.mk.injEq, eq_self_iff_true, true_and, and_true]
          omega
      | cons b t' =>
        obtain ⟨by', bv⟩ := b
        constructor
        · rintro y' v' hy'
          rw [List.get?_cons_succ, List.get?_cons_zero, Option.some_inj] at hy'
          cases hy'
          show (((List.range 12).map (fun mm =>
              (((y, mm + 1) : Nat × Nat),
                ((12 - ((mm : ℚ) + 1)) / 12) * v + (((mm : ℚ) + 1) / 12) * bv))) ++
            drought_interpolate ((by', bv) :: t')).get? (12 * 0 + (m - 1)) = _
          rw [Nat.mul_zero, Nat.zero_add,
            List.get?_append (by simpa using hidx), List.get?_map,
            List.get?_range hidx, Option.map_some']
          simp only [Option.some_inj, Prod.mk.injEq, eq_self_iff_true, true_and, and_true]
          refine ⟨by omega, ?_⟩
          rw [hcast]
        · intro hnone
          rw [List.get?_cons_succ, List.get?_cons_zero] at hnone
          cases hnone
    | succ i' =>
      rw [List.get?_cons_succ] at hi
      cases t with
      | nil => cases hi
      | cons b t' =>
        obtain ⟨by', bv⟩ := b
        have hsplit : drought_interpolate ((ay, av) :: (by', bv) :: t') =
            ((List.range 12).map (fun mm =>
              (((ay, mm + 1) : Nat × Nat),
                ((12 - ((mm : ℚ) + 1)) / 12) * av + (((mm : ℚ) + 1) / 12) * bv))) ++
            drought_interpolate ((by', bv) :: t') := rfl
        have hlen : ((List.range 12).map (fun mm =>
            (((ay, mm + 1) : Nat × Nat),
              ((12 - ((mm : ℚ) + 1)) / 12) * av + (((mm : ℚ) + 1) / 12) * bv))).length
            = 12 := by simp
        rw [hsplit, List.get?_append_right (by rw [hlen]; omega), hlen,
          show 12 * (i' + 1) + (m - 1) - 12 = 12 * i' + (m - 1) from by omega]
        exact IH i' hi

/-- Witness for C5: on [10, 20] at years 2000 and 2001, month 1 of year
    index 0: January 2000 is (11/12)*10 + (1/12)*20. -/
theorem c5_drought_interpolation_witness :
    (∀ y' v', ([(2000, 10), (2001, 20)] : List (Nat × ℚ)).get? 1 = some (y', v') →
      (drought_interpolate [(2000, 10), (2001, 20)]).get? (12 * 0 + (1 - 1)) =
        some ((2000, 1), ((12 - (1 : ℚ)) / 12) * 10 + ((1 : ℚ) / 12) * v')) ∧
    (([(2000, 10), (2001, 20)] : List (Nat × ℚ)).get? 1 = none →
      (drought_interpolate [(2000, 10), (2001, 20)]).get? (12 * 0 + (1 - 1)) =
        some ((2000, 1), 10)) :=
  c5_drought_interpolation [(2000, 10), (2001, 20)] 0 1 2000 10
    (by decide) (by decide) (by decide)

/-- C8 counterexample: with the grid absent, `apply_mask` raises the
    builtin `ValueError` ("Data not loaded. ..."), which is not the
    `ConfigurationError` the claim names — no such class exists in the
    source. -/
theorem c8_configurationerror_counterexample :
    apply_mask none (some maskEx) (4 / 5) = .error (.valueError dataNotLoadedMsg) ∧
    isConfigurationError (.valueError dataNotLoadedMsg) = false :=
  ⟨rfl, rfl⟩

/-- C8 (corrected): `apply_mask` fails with a `ValueError` (not a
    `ConfigurationError`) exactly when the grid or the mask is absent,
    raised immediately at the point of use; when both are present it
    returns the masked grid and raises no error. -/
theorem c8_apply_mask_valueerror (a : Option Grid) (mk : Option Mask) (t : ℚ) :
    ((a = none ∨ mk = none) → apply_mask a mk t = .error (.valueError dataNotLoadedMsg)) ∧
    (∀ ga gm, a = some ga → mk = some gm → apply_mask a mk t = .ok (maskCells ga gm t)) := by
  cases a <;> cases mk <;> simp [apply_mask]

/-- Witness for C8: the missing-grid case errors and the both-present
    case succeeds, on concrete one-cell data. -/
theorem c8_apply_mask_valueerror_witness :
    apply_mask none (some maskEx) (4 / 5) = .error (.valueError dataNotLoadedMsg) ∧
    apply_mask (some gridEx) (some maskEx) (4 / 5) = .ok (maskCells gridEx maskEx (4 / 5)) :=
  ⟨(c8_apply_mask_valueerror none (some maskEx) (4 / 5)).1 (Or.inl rfl),
   (c8_apply_mask_valueerror (some gridEx) (some maskEx) (4 / 5)).2 gridEx maskEx rfl rfl⟩

/-- NaN-ing the sentinel cells of a row and dropping them outright leave
    the same valid values, hence the same skipna row mean. -/
theorem rowMean_clean_eq_drop (vals : List (Option ℚ)) :
    rowMean (vals.map (fun c => if c = some sentinel then none else c)) =
    rowMean (vals.filter (fun c => if c = some sentinel then false else true)) := by
  have hvals : (vals.map (fun c => if c = some sentinel then none else c)).filterMap id =
      (vals.filter (fun c => if c = some sentinel then false else true)).filterMap id := by
    induction vals with
    | nil => rfl
    | cons c t IH =>
      by_cases h : c = some sentinel <;>
        simp [List.filterMap_cons, List.filter_cons, h, IH]
  simp only [rowMean, hvals]

/-- The cross-station average series of the cleaned table equals that of
    the sentinel-dropped table. -/
theorem meanRef_clean_eq_drop (t : SLTable) (r1 r2 : Tm) :
    meanRef (clean_data t) r1 r2 = meanRef (dropSentinels t) r1 r2 := by
  simp only [meanRef, refMask, clean_data, dropSentinels, List.filter_map]
  rw [List.map_map, List.map_map]
  apply List.map_congr_left
  intro r _
  simp only [Function.comp_apply]
  rw [rowMean_clean_eq_drop]

/-- C9 (confirmed): in the sea-level pipeline every input cell equal to
    the sentinel -99999.0 is converted to no-data by `clean_data`, which
    `process` runs before any baseline statistic is computed; as a
    result, the reference-period monthly mean and standard deviation
    computed in `process` coincide with those of the table with the
    sentinel cells removed outright — sentinel values never influence the
    baselines. -/
theorem c9_sealevel_sentinel (t : SLTable) (r1 r2 : Tm) (m : Nat) (row : SLRow)
    (c : Option ℚ) (hrow : row ∈ clean_data t) (hc : c ∈ row.vals) :
    c ≠ some sentinel ∧
    process_baseline_stats t r1 r2 m =
      (monthly_means (dropSentinels t) r1 r2 m, monthly_std_devs (dropSentinels t) r1 r2 m) := by
  constructor
  · simp only [clean_data, List.mem_map] at hrow
    obtain ⟨r0, -, hr0⟩ := hrow
    subst hr0
    simp only [List.mem_map] at hc
    obtain ⟨c0, -, hc0⟩ := hc
    by_cases h : c0 = some sentinel
    · rw [h] at hc0
      simp at hc0
      rw [← hc0]
      simp
    · rw [if_neg h] at hc0
      rw [← hc0]
      exact h
  · have hsl : slMonthVals (clean_data t) r1 r2 m = slMonthVals (dropSentinels t) r1 r2 m := by
      simp only [slMonthVals, meanRef_clean_eq_drop]
    simp only [process_baseline_stats, monthly_means, monthly_std_devs, monthly_var, hsl]

/-- Witness for C9: on a concrete one-row table whose first cell is the
    sentinel, the cleaned row carries no sentinel and the baselines agree
    with the sentinel-dropped table. -/
theorem c9_sealevel_sentinel_witness :
    (none : Option ℚ) ≠ some sentinel ∧
    process_baseline_stats slEx (2000, 1) (2001, 1) 1 =
      (monthly_means (dropSentinels slEx) (2000, 1) (2001, 1) 1,
       monthly_std_devs (dropSentinels slEx) (2000, 1) (2001, 1) 1) :=
  c9_sealevel_sentinel slEx (2000, 1) (2001, 1) 1
    { time := (2000, 1), vals := [none, some 5] } none
    (by norm_num [clean_data, slEx, sentinel]) (by norm_num)

/-- A successful association-list lookup returns an entry of the list. -/
theorem mem_of_lookup_eq_some {α β : Type} [BEq α] [LawfulBEq α]
    (l : List (α × β)) (k : α) (v : β) (h : l.lookup k = some v) : (k, v) ∈ l := by
  induction l with
  | nil => cases h
  | cons a t IH =>
    obtain ⟨k', v'⟩ := a
    cases hkk : (k == k') with
    | true =>
      have hk : k = k' := eq_of_beq hkk
      subst hk
      simp only [List.lookup, hkk] at h
      rw [Option.some_inj] at h
      subst h
      exact List.mem_cons_self _ _
    | false =>
      simp only [List.lookup, hkk] at h
      exact List.mem_cons_of_mem _ (IH h)

/-- The `whereGtZero` indicator only takes the values 0 and 1. -/
theorem whereGtZero_cases (v : Option ℚ) : whereGtZero v = 0 ∨ whereGtZero v = 1 := by
  cases v with
  | none => exact Or.inl rfl
  | some x =>
    by_cases h : 0 < x
    · exact Or.inr (by simp [whereGtZero, h])
    · exact Or.inl (by simp [whereGtZero, h])

/-- For one month of the coded T90 indicator series, the numerator
    (`sum`) counts the days strictly above the threshold and the
    denominator (`count`) counts ALL days of that month. -/
theorem monthEntries_diff_sum_len (ext : ExtSeries) (thr : Nat → Option ℚ) (ym : Tm) :
    (monthEntries ((diffVsThreshold ext thr).map (fun p => (p.1, whereGtZero p.2))) ym).sum
      = (countAbove ext thr ym : ℤ) ∧
    (monthEntries ((diffVsThreshold ext thr).map (fun p => (p.1, whereGtZero p.2))) ym).length
      = countDays ext ym := by
  induction ext with
  | nil => exact ⟨rfl, rfl⟩
  | cons p t IH =>
    obtain ⟨IH1, IH2⟩ := IH
    simp only [monthEntries, diffVsThreshold, countAbove, countDays,
      List.map_cons, List.filter_cons] at IH1 IH2 ⊢
    by_cases hm : ((p.1.year, p.1.month) == ym) = true
    · rcases whereGtZero_cases (subOpt p.2 (thr p.1.doy)) with h0 | h1
      · have hne : (whereGtZero (subOpt p.2 (thr p.1.doy)) == 1) = false := by
          rw [h0]; rfl
        simp only [hm, hne, Bool.true_and, Bool.false_eq_true, if_true, if_false,
          List.map_cons, List.sum_cons, List.length_cons]
        refine ⟨?_, by rw [IH2]⟩
        rw [h0, IH1]
        ring
      · have he : (whereGtZero (subOpt p.2 (thr p.1.doy)) == 1) = true := by
          rw [h1]; rfl
        simp only [hm, he, Bool.true_and, if_true, List.map_cons,
          List.sum_cons, List.length_cons]
        refine ⟨?_, by rw [IH2]⟩
        rw [h1, IH1]
        push_cast
        ring
    · have hm' : ((p.1.year, p.1.month) == ym) = false := by
        simpa using hm
      simp only [hm', Bool.false_and, if_false]
      exact ⟨IH1, IH2⟩

/-- A value listed by `halfFreqAbove` for month `ym` is the coded ratio:
    days strictly above the threshold over ALL days of the month. -/
theorem halfFreqAbove_val (ext : ExtSeries) (thr : Nat → Option ℚ) (ym : Tm) (q : ℚ)
    (h : (ym, q) ∈ halfFreqAbove ext thr) :
    q = (countAbove ext thr ym : ℚ) / (countDays ext ym : ℚ) := by
  simp only [halfFreqAbove, monthlyFreq, List.mem_map] at h
  obtain ⟨ym', -, heq⟩ := h
  rw [Prod.mk.injEq] at heq
  obtain ⟨h1, h2⟩ := heq
  subst h1
  obtain ⟨hsum, hlen⟩ := monthEntries_diff_sum_len ext thr ym'
  rw [← h2, hsum, hlen]
  norm_num

/-- C7 (corrected): every monthly value of the coded T90 equals
    0.5 × (day frequency + night frequency), where each partition's
    frequency is (number of daily-extremum observations strictly above
    the day-of-year-matched threshold) divided by the count of ALL daily
    observations of that month — invalid (no-data) extrema contribute 0
    to the numerator but are still counted in the denominator, because
    the `xr.where` indicator is an integer array without NaN and
    `count()` therefore counts every day. -/
theorem c7_t90_all_days_denominator (extDay extNight : ExtSeries)
    (thrDay thrNight : Nat → Option ℚ) (ym : Tm) (x : ℚ)
    (hmem : (ym, x) ∈ t90 extDay extNight thrDay thrNight) :
    x = (1 / 2 : ℚ) * ((countAbove extDay thrDay ym : ℚ) / (countDays extDay ym : ℚ)
      + (countAbove extNight thrNight ym : ℚ) / (countDays extNight ym : ℚ)) := by
  simp only [t90, List.mem_filterMap] at hmem
  obtain ⟨⟨ym', xd⟩, hp, hmatch⟩ := hmem
  cases hlk : (halfFreqAbove extNight thrNight).lookup ym' with
  | none =>
    rw [hlk] at hmatch
    cases hmatch
  | some xn =>
    rw [hlk] at hmatch
    rw [Option.some_inj, Prod.mk.injEq] at hmatch
    obtain ⟨h1, h2⟩ := hmatch
    subst h1
    have hd := halfFreqAbove_val extDay thrDay ym' xd hp
    have hn := halfFreqAbove_val extNight thrNight ym' xn
      (mem_of_lookup_eq_some _ _ _ hlk)
    rw [← h2, hd, hn]

/-- Witness for C7: on the concrete series with one masked day extremum,
    the emitted January 2000 value satisfies the all-days formula. -/
theorem c7_t90_all_days_denominator_witness :
    ((2000, 1), (3 / 4 : ℚ)) ∈ t90 extDayEx extNightEx thrEx thrEx ∧
    (3 / 4 : ℚ) = (1 / 2 : ℚ)
      * ((countAbove extDayEx thrEx (2000, 1) : ℚ) / (countDays extDayEx (2000, 1) : ℚ)
        + (countAbove extNightEx thrEx (2000, 1) : ℚ) / (countDays extNightEx (2000, 1) : ℚ)) :=
  have h : ((2000, 1), (3 / 4 : ℚ)) ∈ t90 extDayEx extNightEx thrEx thrEx := by
    norm_num [t90, halfFreqAbove, monthlyFreq, monthsOf, monthEntries, diffVsThreshold,
      whereGtZero, subOpt, extDayEx, extNightEx, thrEx, List.dedup, List.lookup,
      List.filter, List.map]
  ⟨h, c7_t90_all_days_denominator extDayEx extNightEx thrEx thrEx (2000, 1) (3 / 4) h⟩

/-- C7 counterexample: on the same concrete input the coded T90 value is
    3/4 while the claim's valid-observations denominator gives 1: the
    masked day extremum is excluded from the claim's denominator but not
    from the code's. -/
theorem c7_valid_denominator_counterexample :
    t90 extDayEx extNightEx thrEx thrEx = [((2000, 1), 3 / 4)] ∧
    spec_t90 extDayEx extNightEx thrEx thrEx = [((2000, 1), 1)] ∧
    ((3 / 4 : ℚ) = 1 → False) := by
  refine ⟨?_, ?_, by norm_num⟩
  · norm_num [t90, halfFreqAbove, monthlyFreq, monthsOf, monthEntries, diffVsThreshold,
      whereGtZero, subOpt, extDayEx, extNightEx, thrEx, List.dedup, List.lookup,
      List.filter, List.map, List.filterMap_cons, List.filterMap_nil, beq_self_eq_true,
      show (((0 : ℤ) == 1) = false) from rfl]
  · norm_num [spec_t90, specHalfFreqAbove, monthsOf, monthEntries, diffVsThreshold,
      countAbove, countValid, countDays, whereGtZero, subOpt, extDayEx, extNightEx,
      thrEx, List.dedup, List.lookup, List.filter, List.map, List.filterMap_cons,
      List.filterMap_nil, beq_self_eq_true, show (((0 : ℤ) == 1) = false) from rfl]

/-- Subtraction of finite floats is finite subtraction. -/
theorem rval_sub_fin (a b : ℝ) : RVal.sub (.fin a) (.fin b) = .fin (a - b) := by
  simp [RVal.sub, RVal.add, RVal.neg, sub_eq_add_neg]

/-- Division of finite floats with a nonzero denominator is finite
    division. -/
theorem rval_div_fin (a b : ℝ) (hb : b ≠ 0) : RVal.div (.fin a) (.fin b) = .fin (a / b) := by
  simp [RVal.div, hb]

/-- NaN propagates through subtraction. -/
theorem rval_sub_nan_left (b : RVal) : RVal.sub .nan b = .nan := by
  cases b <;> rfl

/-- NaN propagates through division. -/
theorem rval_div_nan_left (b : RVal) : RVal.div .nan b = .nan := by
  cases b <;> rfl

/-- On an infinity-free list the NaN-skipping sum is the finite sum of
    the finite values (and the non-NaN values are exactly the finite
    ones). -/
theorem nsum_eq_finVals (l : List RVal) (h : ∀ v ∈ l, v.isInf = false) :
    nsum l = .fin (finVals l).sum ∧ (nonNan l).length = (finVals l).length := by
  induction l with
  | nil => exact ⟨rfl, rfl⟩
  | cons v t IH =>
    have hv := h v (List.mem_cons_self v t)
    have ht := IH (fun w hw => h w (List.mem_cons_of_mem v hw))
    obtain ⟨h1, h2⟩ := ht
    cases v with
    | nan =>
      have hnn : nonNan (RVal.nan :: t) = nonNan t := by
        simp [nonNan, List.filter_cons, RVal.isNan]
      have hfv : finVals (RVal.nan :: t) = finVals t := by
        simp [finVals, List.filterMap_cons]
      rw [nsum, hnn, hfv]
      exact ⟨h1, h2⟩
    | fin x =>
      have hnn : nonNan (RVal.fin x :: t) = RVal.fin x :: nonNan t := by
        simp [nonNan, List.filter_cons, RVal.isNan]
      have hfv : finVals (RVal.fin x :: t) = x :: finVals t := by
        simp [finVals, List.filterMap_cons]
      constructor
      · rw [nsum, hnn, List.foldr_cons,
          show (nonNan t).foldr RVal.add (.fin 0) = nsum t from rfl, h1, hfv,
          List.sum_cons]
        rfl
      · rw [hnn, hfv, List.length_cons, List.length_cons, h2]
    | inf => simp [RVal.isInf] at hv
    | ninf => simp [RVal.isInf] at hv

/-- On an infinity-free list the non-NaN values are the finite values. -/
theorem nonNan_eq_map_fin (l : List RVal) (h : ∀ v ∈ l, v.isInf = false) :
    nonNan l = (finVals l).map RVal.fin := by
  induction l with
  | nil => rfl
  | cons v t IH =>
    have hv := h v (List.mem_cons_self v t)
    have ht := IH (fun w hw => h w (List.mem_cons_of_mem v hw))
    cases v with
    | nan => simpa [nonNan, finVals, List.filter_cons, List.filterMap_cons, RVal.isNan]
        using ht
    | fin x => simpa [nonNan, finVals, List.filter_cons, List.filterMap_cons, RVal.isNan]
        using ht
    | inf => simp [RVal.isInf] at hv
    | ninf => simp [RVal.isInf] at hv

/-- The finite values of a list of finite floats. -/
theorem finVals_map_fin (xs : List ℝ) : finVals (xs.map RVal.fin) = xs := by
  induction xs with
  | nil => rfl
  | cons x t IH => simpa [finVals, List.filterMap_cons] using IH

/-- On infinity-free data with at least one finite value, `nmean` is the
    finite arithmetic mean of the finite values. -/
theorem nmean_eq_finVals (l : List RVal) (h : ∀ v ∈ l, v.isInf = false)
    (hne : finVals l ≠ []) : nmean l = .fin (realMean (finVals l)) := by
  obtain ⟨h1, h2⟩ := nsum_eq_finVals l h
  rw [nmean, h1, h2, realMean]
  have hlen : ((finVals l).length : ℝ) ≠ 0 := by
    simpa using List.length_pos.mpr hne |>.ne'
  rw [rval_div_fin _ _ hlen]

/-- On infinity-free data with at least one finite value, `nvar` is the
    finite population variance of the finite values. -/
theorem nvar_eq_finVals (l : List RVal) (h : ∀ v ∈ l, v.isInf = false)
    (hne : finVals l ≠ []) : nvar l = .fin (realVar (finVals l)) := by
  rw [nvar, nonNan_eq_map_fin l h, nmean_eq_finVals l h hne, List.map_map]
  have hfun : ((fun v => RVal.mul (RVal.sub v (.fin (realMean (finVals l))))
        (RVal.sub v (.fin (realMean (finVals l))))) ∘ RVal.fin)
      = fun x => RVal.fin ((x - realMean (finVals l)) * (x - realMean (finVals l))) := by
    funext x
    simp [rval_sub_fin, RVal.mul]
  rw [hfun]
  rw [show (fun x => RVal.fin ((x - realMean (finVals l)) * (x - realMean (finVals l))))
      = RVal.fin ∘ (fun x => (x - realMean (finVals l)) * (x - realMean (finVals l)))
      from rfl, ← List.map_map]
  have hnoinf : ∀ w ∈ ((finVals l).map
      (fun x => (x - realMean (finVals l)) * (x - realMean (finVals l)))).map RVal.fin,
      w.isInf = false := by
    intro w hw
    rw [List.mem_map] at hw
    obtain ⟨x, -, rfl⟩ := hw
    rfl
  rw [nmean_eq_finVals _ hnoinf]
  · rw [finVals_map_fin, realVar, realMean, List.length_map]
  · rw [finVals_map_fin]
    intro hcon
    exact hne (by simpa using hcon)

/-- Population variance is nonnegative. -/
theorem realVar_nonneg (xs : List ℝ) : 0 ≤ realVar xs := by
  apply div_nonneg
  · apply List.sum_nonneg
    intro x hx
    rw [List.mem_map] at hx
    obtain ⟨y, -, rfl⟩ := hx
    exact mul_self_nonneg _
  · exact Nat.cast_nonneg _

/-- On infinity-free data with at least one finite value, `nstd` is the
    finite square root of the population variance. -/
theorem nstd_eq_finVals (l : List RVal) (h : ∀ v ∈ l, v.isInf = false)
    (hne : finVals l ≠ []) : nstd l = .fin (Real.sqrt (realVar (finVals l))) := by
  rw [nstd, nvar_eq_finVals l h hne, RVal.sqrt]
  rw [if_neg (not_lt.mpr (realVar_nonneg _))]

/-- Sum of a list mapped through `y ↦ f y / k`. -/
theorem sum_map_div (ys : List ℝ) (f : ℝ → ℝ) (k : ℝ) :
    (ys.map (fun y => f y / k)).sum = (ys.map f).sum / k := by
  induction ys with
  | nil => simp
  | cons y t IH =>
    simp only [List.map_cons, List.sum_cons, IH, div_add_div_same]

/-- Sum of a list mapped through `x ↦ (x - a) / c`. -/
theorem sum_map_sub_div (xs : List ℝ) (a c : ℝ) :
    (xs.map (fun x => (x - a) / c)).sum = (xs.sum - xs.length * a) / c := by
  induction xs with
  | nil => simp
  | cons x t IH =>
    simp only [List.map_cons, List.sum_cons, List.length_cons, IH, div_add_div_same]
    congr 1
    push_cast
    ring

/-- Mean of a list mapped through `x ↦ (x - a) / c`. -/
theorem realMean_map_sub_div (xs : List ℝ) (hne : xs ≠ []) (a c : ℝ) :
    realMean (xs.map (fun x => (x - a) / c)) = (realMean xs - a) / c := by
  have hn : (xs.length : ℝ) ≠ 0 := by
    simpa using List.length_pos.mpr hne |>.ne'
  simp only [realMean]
  rw [sum_map_sub_div, List.length_map, div_right_comm]
  congr 1
  rw [sub_div, mul_div_cancel_left₀ _ hn]

/-- Standardizing a finite list by its own mean and standard deviation
    yields mean 0 and population variance 1 (hence standard deviation 1),
    provided the variance is nonzero. -/
theorem realVar_standardized (xs : List ℝ) (hne : xs ≠ []) (hv : realVar xs ≠ 0) :
    realMean (xs.map (fun x => (x - realMean xs) / Real.sqrt (realVar xs))) = 0 ∧
    realVar (xs.map (fun x => (x - realMean xs) / Real.sqrt (realVar xs))) = 1 := by
  have hmean : realMean (xs.map (fun x => (x - realMean xs) / Real.sqrt (realVar xs))) = 0 := by
    rw [realMean_map_sub_div xs hne, sub_self, zero_div]
  refine ⟨hmean, ?_⟩
  have hvpos : 0 < realVar xs := lt_of_le_of_ne (realVar_nonneg xs) (Ne.symm hv)
  have hsq : Real.sqrt (realVar xs) * Real.sqrt (realVar xs) = realVar xs :=
    Real.mul_self_sqrt (le_of_lt hvpos)
  rw [realVar, hmean, List.map_map]
  have hfun : ((fun y => (y - 0) * (y - 0)) ∘ fun x => (x - realMean xs) / Real.sqrt (realVar xs))
      = fun x => ((x - realMean xs) * (x - realMean xs)) / realVar xs := by
    funext x
    simp only [Function.comp_apply, sub_zero, div_mul_div_comm, hsq]
  rw [hfun, List.length_map,
    sum_map_div xs (fun x => (x - realMean xs) * (x - realMean xs)) (realVar xs),
    div_right_comm]
  rw [show (xs.map (fun x => (x - realMean xs) * (x - realMean xs))).sum / (xs.length : ℝ)
      = realVar xs from rfl]
  exact div_self hv

/-- The month-`m` values of the standardized series restricted to the
    reference period are the month-`m` reference values pushed through
    `v ↦ (v - mean_m) / std_m`. -/
theorem monthVals_standardized_restrict (metric : Series) (t1 t2 : Tm) (m : Nat) :
    monthVals (timeSlice (standardize_metric metric t1 t2) t1 t2) m =
      (monthVals (timeSlice metric t1 t2) m).map
        (fun v => RVal.div (RVal.sub v (groupMean (timeSlice metric t1 t2) m))
                           (groupStd (timeSlice metric t1 t2) m)) := by
  unfold standardize_metric monthVals timeSlice
  rw [List.filter_map, List.filter_map, List.map_map, List.map_map]
  apply List.map_congr_left
  intro p hp
  rw [List.mem_filter] at hp
  obtain ⟨-, hm⟩ := hp
  have hm' : p.1.2 = m := by
    have hb : (p.1.2 == m) = true := by simpa [Function.comp] using hm
    exact eq_of_beq hb
  simp only [Function.comp_apply, hm']

/-- Pointwise image of an infinity-free float list under a function that
    maps finite values to finite values and NaN to NaN. -/
theorem finVals_map_pointwise (l : List RVal) (h : ∀ w ∈ l, w.isInf = false)
    (g : RVal → RVal) (f : ℝ → ℝ)
    (hgf : ∀ x, g (.fin x) = .fin (f x)) (hgn : g .nan = .nan) :
    finVals (l.map g) = (finVals l).map f ∧ (∀ w ∈ l.map g, w.isInf = false) := by
  induction l with
  | nil => exact ⟨rfl, fun w hw => absurd hw (List.not_mem_nil w)⟩
  | cons w t IH =>
    have hw := h w (List.mem_cons_self w t)
    obtain ⟨IH1, IH2⟩ := IH (fun u hu => h u (List.mem_cons_of_mem w hu))
    cases w with
    | fin x =>
      have hcons : finVals (g (RVal.fin x) :: List.map g t) = f x :: finVals (List.map g t) := by
        rw [hgf x]
        simp [finVals, List.filterMap_cons]
      have hfv : finVals (RVal.fin x :: t) = x :: finVals t := by
        simp [finVals, List.filterMap_cons]
      constructor
      · rw [List.map_cons, hcons, IH1, hfv, List.map_cons]
      · intro u hu
        rw [List.map_cons, List.mem_cons] at hu
        rcases hu with rfl | hu
        · rw [hgf x]; rfl
        · exact IH2 u hu
    | nan =>
      have hcons : finVals (g RVal.nan :: List.map g t) = finVals (List.map g t) := by
        rw [hgn]
        simp [finVals, List.filterMap_cons]
      have hfv : finVals (RVal.nan :: t) = finVals t := by
        simp [finVals, List.filterMap_cons]
      constructor
      · rw [List.map_cons, hcons, IH1, hfv]
      · intro u hu
        rw [List.map_cons, List.mem_cons] at hu
        rcases hu with rfl | hu
        · rw [hgn]; rfl
        · exact IH2 u hu
    | inf => simp [RVal.isInf] at hw
    | ninf => simp [RVal.isInf] at hw

/-- C2 (confirmed): for every metric series without infinities and every
    reference period with nonzero (finite) per-calendar-month variance at
    month m over the reference slice, the series obtained by applying
    `standardize_metric` and then restricting to the reference period
    has, at calendar month m, NaN-skipping mean exactly 0 and standard
    deviation exactly 1.  The temperature, precipitation, drought and
    wind components all standardize through this same
    `standardize_metric`, so the property holds for all four
    identically. -/
theorem c2_standardize_mean_std (metric : Series) (t1 t2 : Tm) (m : Nat) (v : ℝ)
    (hfin : ∀ p ∈ metric, (p.2).isInf = false)
    (hvar : nvar (monthVals (timeSlice metric t1 t2) m) = .fin v) (hv : v ≠ 0) :
    nmean (monthVals (timeSlice (standardize_metric metric t1 t2) t1 t2) m) = .fin 0 ∧
    nstd (monthVals (timeSlice (standardize_metric metric t1 t2) t1 t2) m) = .fin 1 := by
  have hGnoInf : ∀ w ∈ monthVals (timeSlice metric t1 t2) m, w.isInf = false := by
    intro w hw
    rw [monthVals, List.mem_map] at hw
    obtain ⟨p, hp, rfl⟩ := hw
    rw [List.mem_filter] at hp
    obtain ⟨hp, -⟩ := hp
    rw [timeSlice, List.mem_filter] at hp
    exact hfin p hp.1
  have hfvne : finVals (monthVals (timeSlice metric t1 t2) m) ≠ [] := by
    intro hcon
    have h0 : nonNan (monthVals (timeSlice metric t1 t2) m) = [] := by
      rw [nonNan_eq_map_fin _ hGnoInf, hcon]
      rfl
    rw [nvar, h0] at hvar
    simp only [List.map_nil] at hvar
    rw [show nmean ([] : List RVal) = RVal.nan from by simp [nmean, nsum, nonNan, RVal.div]]
      at hvar
    cases hvar
  have hveq : realVar (finVals (monthVals (timeSlice metric t1 t2) m)) = v := by
    have hnv := nvar_eq_finVals _ hGnoInf hfvne
    rw [hnv] at hvar
    cases hvar
    rfl
  have hvpos : 0 < v := by
    have hnn := realVar_nonneg (finVals (monthVals (timeSlice metric t1 t2) m))
    rw [hveq] at hnn
    exact lt_of_le_of_ne hnn (Ne.symm hv)
  have hsne : Real.sqrt (realVar (finVals (monthVals (timeSlice metric t1 t2) m))) ≠ 0 := by
    rw [hveq]
    exact Real.sqrt_ne_zero'.mpr hvpos
  have hgm : groupMean (timeSlice metric t1 t2) m
      = .fin (realMean (finVals (monthVals (timeSlice metric t1 t2) m))) :=
    nmean_eq_finVals _ hGnoInf hfvne
  have hgs : groupStd (timeSlice metric t1 t2) m
      = .fin (Real.sqrt (realVar (finVals (monthVals (timeSlice metric t1 t2) m)))) :=
    nstd_eq_finVals _ hGnoInf hfvne
  rw [monthVals_standardized_restrict, hgm, hgs]
  obtain ⟨hfm, hnoinf2⟩ := finVals_map_pointwise (monthVals (timeSlice metric t1 t2) m)
    hGnoInf
    (fun w => RVal.div
      (RVal.sub w (.fin (realMean (finVals (monthVals (timeSlice metric t1 t2) m)))))
      (.fin (Real.sqrt (realVar (finVals (monthVals (timeSlice metric t1 t2) m))))))
    (fun x => (x - realMean (finVals (monthVals (timeSlice metric t1 t2) m)))
      / Real.sqrt (realVar (finVals (monthVals (timeSlice metric t1 t2) m))))
    (fun x => by simp only [rval_sub_fin, rval_div_fin _ _ hsne])
    rfl
  have hstd := realVar_standardized (finVals (monthVals (timeSlice metric t1 t2) m))
    hfvne (by rw [hveq]; exact hv)
  have hmapne : finVals ((monthVals (timeSlice metric t1 t2) m).map
      (fun w => RVal.div
        (RVal.sub w (.fin (realMean (finVals (monthVals (timeSlice metric t1 t2) m)))))
        (.fin (Real.sqrt (realVar (finVals (monthVals (timeSlice metric t1 t2) m)))))))
      ≠ [] := by
    rw [hfm]
    intro hcon
    rw [List.map_eq_nil] at hcon
    exact hfvne hcon
  constructor
  · rw [nmean_eq_finVals _ hnoinf2 hmapne, hfm, hstd.1]
  · rw [nstd_eq_finVals _ hnoinf2 hmapne, hfm, hstd.2, Real.sqrt_one]

/-- Witness for C2: on the two-point January series [10, 20] the
    reference-slice variance at month 1 is 25 ≠ 0, and the standardized
    series restricted to the reference period has month-1 mean 0 and
    standard deviation 1. -/
theorem c2_standardize_mean_std_witness :
    (∀ p ∈ metricEx, (p.2).isInf = false) ∧
    nvar (monthVals (timeSlice metricEx (2000, 1) (2001, 12)) 1) = .fin 25 ∧
    (25 : ℝ) ≠ 0 ∧
    (nmean (monthVals (timeSlice (standardize_metric metricEx (2000, 1) (2001, 12))
        (2000, 1) (2001, 12)) 1) = .fin 0 ∧
     nstd (monthVals (timeSlice (standardize_metric metricEx (2000, 1) (2001, 12))
        (2000, 1) (2001, 12)) 1) = .fin 1) :=
  have h1 : ∀ p ∈ metricEx, (p.2).isInf = false := by
    intro p hp
    simp only [metricEx, List.mem_cons, List.not_mem_nil, or_false] at hp
    rcases hp with rfl | rfl <;> rfl
  have h2 : nvar (monthVals (timeSlice metricEx (2000, 1) (2001, 12)) 1) = .fin 25 := by
    norm_num [nvar, nmean, nsum, nonNan, monthVals, timeSlice, tmLe, metricEx,
      RVal.div, RVal.add, RVal.sub, RVal.neg, RVal.mul, RVal.isNan,
      List.filter, List.map, List.foldr]
  ⟨h1, h2, by norm_num,
    c2_standardize_mean_std metricEx (2000, 1) (2001, 12) 1 25 h1 h2 (by norm_num)⟩

/-- The NaN-skipping sum of a constant finite list. -/
theorem nsum_const (l : List RVal) (a : ℝ) (h : ∀ w ∈ l, w = .fin a) :
    nsum l = .fin (l.length * a) ∧ (nonNan l).length = l.length := by
  induction l with
  | nil =>
    constructor
    · rw [show nsum ([] : List RVal) = .fin 0 from rfl]
      norm_num
    · rfl
  | cons w t IH =>
    have hw := h w (List.mem_cons_self w t)
    obtain ⟨IH1, IH2⟩ := IH (fun u hu => h u (List.mem_cons_of_mem w hu))
    have hnn : nonNan (RVal.fin a :: t) = .fin a :: nonNan t := by
      simp [nonNan, List.filter_cons, RVal.isNan]
    constructor
    · rw [hw, nsum, hnn, List.foldr_cons,
        show (nonNan t).foldr RVal.add (.fin 0) = nsum t from rfl, IH1]
      show RVal.fin (a + (t.length : ℝ) * a) = .fin (((t.length + 1 : ℕ) : ℝ) * a)
      congr 1
      push_cast
      ring
    · rw [hw, hnn, List.length_cons, List.length_cons, IH2]

/-- The NaN-skipping mean of a nonempty constant finite list is the
    constant. -/
theorem nmean_const (l : List RVal) (a : ℝ) (h : ∀ w ∈ l, w = .fin a) (hne : l ≠ []) :
    nmean l = .fin a := by
  obtain ⟨h1, h2⟩ := nsum_const l a h
  have hn : ((l.length : ℕ) : ℝ) ≠ 0 := by
    simpa using List.length_pos.mpr hne |>.ne'
  rw [nmean, h1, h2, rval_div_fin _ _ hn]
  congr 1
  exact mul_div_cancel_left₀ a hn

/-- A nonempty constant finite list has mean the constant and standard
    deviation exactly 0. -/
theorem nstd_const (l : List RVal) (a : ℝ) (h : ∀ w ∈ l, w = .fin a) (hne : l ≠ []) :
    nstd l = .fin 0 ∧ nmean l = .fin a := by
  have hm := nmean_const l a h hne
  refine ⟨?_, hm⟩
  have hnn : nonNan l = l := by
    apply List.filter_eq_self.mpr
    intro w hw
    rw [h w hw]
    rfl
  rw [nstd, nvar, hm, hnn]
  have hmap : l.map (fun v => RVal.mul (RVal.sub v (.fin a)) (RVal.sub v (.fin a)))
      = l.map (fun _ => RVal.fin 0) := by
    apply List.map_congr_left
    intro w hw
    rw [h w hw, rval_sub_fin, sub_self]
    simp [RVal.mul]
  rw [hmap]
  have hzero : nmean (l.map fun _ => RVal.fin 0) = .fin 0 := by
    apply nmean_const
    · intro w hw
      rw [List.mem_map] at hw
      obtain ⟨u, -, rfl⟩ := hw
      rfl
    · intro hcon
      rw [List.map_eq_nil] at hcon
      exact hne hcon
  rw [hzero, RVal.sqrt, if_neg (lt_irrefl 0), Real.sqrt_zero]

/-- C3 (corrected): for an input whose reference-slice values are
    constant per calendar month, `standardize_metric` raises no error
    and divides by a standard deviation of exactly 0: a point whose
    value equals its month's constant (in particular every
    reference-period point) becomes NaN (0/0), a missing point stays
    NaN, but a point whose finite value differs from the constant
    becomes a signed infinity — not the no-data marker the claim
    requires at every point. -/
theorem c3_constant_reference (metric : Series) (t1 t2 : Tm) (c : Nat → ℝ)
    (t : Tm) (v : RVal)
    (hconst : ∀ m x, x ∈ monthVals (timeSlice metric t1 t2) m → x = .fin (c m))
    (hp : (t, v) ∈ metric)
    (hne : monthVals (timeSlice metric t1 t2) t.2 ≠ []) :
    ((t, RVal.div (RVal.sub v (groupMean (timeSlice metric t1 t2) t.2))
        (groupStd (timeSlice metric t1 t2) t.2)) ∈ standardize_metric metric t1 t2) ∧
    (v = .fin (c t.2) → RVal.div (RVal.sub v (groupMean (timeSlice metric t1 t2) t.2))
        (groupStd (timeSlice metric t1 t2) t.2) = .nan) ∧
    (v = .nan → RVal.div (RVal.sub v (groupMean (timeSlice metric t1 t2) t.2))
        (groupStd (timeSlice metric t1 t2) t.2) = .nan) ∧
    (∀ x, v = .fin x → x ≠ c t.2 →
      RVal.div (RVal.sub v (groupMean (timeSlice metric t1 t2) t.2))
          (groupStd (timeSlice metric t1 t2) t.2) = .inf ∨
        RVal.div (RVal.sub v (groupMean (timeSlice metric t1 t2) t.2))
          (groupStd (timeSlice metric t1 t2) t.2) = .ninf) := by
  obtain ⟨hstd0, hmean⟩ := nstd_const (monthVals (timeSlice metric t1 t2) t.2)
    (c t.2) (fun w hw => hconst t.2 w hw) hne
  have hgm : groupMean (timeSlice metric t1 t2) t.2 = .fin (c t.2) := hmean
  have hgs : groupStd (timeSlice metric t1 t2) t.2 = .fin 0 := hstd0
  refine ⟨?_, ?_, ?_, ?_⟩
  · exact List.mem_map_of_mem
      (fun p => (p.1, RVal.div (RVal.sub p.2 (groupMean (timeSlice metric t1 t2) p.1.2))
        (groupStd (timeSlice metric t1 t2) p.1.2))) hp
  · intro hv
    rw [hv, hgm, hgs, rval_sub_fin, sub_self]
    simp [RVal.div]
  · intro hv
    rw [hv, rval_sub_nan_left, rval_div_nan_left]
  · intro x hv hx
    rw [hv, hgm, hgs, rval_sub_fin]
    have hxc : x - c t.2 ≠ 0 := sub_ne_zero.mpr hx
    by_cases hlt : 0 < x - c t.2
    · left
      simp [RVal.div, hxc, hlt]
    · right
      simp [RVal.div, hxc, hlt]

/-- Witness for C3: on the series constant (5) over the 2000 reference
    year, the 2000 point (value 5) standardizes to NaN and the 2001
    point's value 6 differs from the constant, so it standardizes to a
    signed infinity. -/
theorem c3_constant_reference_witness :
    (((2000, 1), RVal.div (RVal.sub (.fin 5)
        (groupMean (timeSlice constMetricEx (2000, 1) (2000, 12)) 1))
        (groupStd (timeSlice constMetricEx (2000, 1) (2000, 12)) 1))
      ∈ standardize_metric constMetricEx (2000, 1) (2000, 12)) ∧
    (RVal.fin 5 = .fin 5 → RVal.div (RVal.sub (.fin 5)
        (groupMean (timeSlice constMetricEx (2000, 1) (2000, 12)) 1))
        (groupStd (timeSlice constMetricEx (2000, 1) (2000, 12)) 1) = .nan) ∧
    (RVal.fin 5 = .nan → RVal.div (RVal.sub (.fin 5)
        (groupMean (timeSlice constMetricEx (2000, 1) (2000, 12)) 1))
        (groupStd (timeSlice constMetricEx (2000, 1) (2000, 12)) 1) = .nan) ∧
    (∀ x, RVal.fin 5 = .fin x → x ≠ 5 →
      RVal.div (RVal.sub (.fin 5)
          (groupMean (timeSlice constMetricEx (2000, 1) (2000, 12)) 1))
          (groupStd (timeSlice constMetricEx (2000, 1) (2000, 12)) 1) = .inf ∨
        RVal.div (RVal.sub (.fin 5)
          (groupMean (timeSlice constMetricEx (2000, 1) (2000, 12)) 1))
          (groupStd (timeSlice constMetricEx (2000, 1) (2000, 12)) 1) = .ninf) :=
  c3_constant_reference constMetricEx (2000, 1) (2000, 12) (fun _ => 5) (2000, 1) (.fin 5)
    (by
      intro m x hx
      by_cases hm : m = 1
      · subst hm
        norm_num [constMetricEx, timeSlice, monthVals, tmLe, List.filter, List.map] at hx
        rw [hx]
      · have hb : ((1 : ℕ) == m) = false := beq_eq_false_iff_ne.mpr (fun h => hm h.symm)
        norm_num [constMetricEx, timeSlice, monthVals, tmLe, hb,
          List.filter, List.map] at hx)
    (by norm_num [constMetricEx])
    (by
      norm_num [constMetricEx, timeSlice, monthVals, tmLe, List.filter, List.map])

/-- C3 counterexample: on the series constant (5) over the reference
    year 2000 but 6 in January 2001, the standardized January 2001 value
    is +infinity — a point of the full series where the result is an
    infinity, not the no-data marker. -/
theorem c3_infinity_counterexample :
    ((2001, 1), RVal.inf) ∈ standardize_metric constMetricEx (2000, 1) (2000, 12) ∧
    RVal.inf.isNan = false := by
  refine ⟨?_, rfl⟩
  have hmem : (((2001, 1) : Tm), RVal.fin 6) ∈ constMetricEx := by
    simp [constMetricEx]
  have h := List.mem_map_of_mem
    (fun p => (p.1, RVal.div (RVal.sub p.2
      (groupMean (timeSlice constMetricEx (2000, 1) (2000, 12)) p.1.2))
      (groupStd (timeSlice constMetricEx (2000, 1) (2000, 12)) p.1.2))) hmem
  have hval : ((fun p => (p.1, RVal.div (RVal.sub p.2
      (groupMean (timeSlice constMetricEx (2000, 1) (2000, 12)) p.1.2))
      (groupStd (timeSlice constMetricEx (2000, 1) (2000, 12)) p.1.2)))
        (((2001, 1) : Tm), RVal.fin 6))
      = (((2001, 1) : Tm), RVal.inf) := by
    norm_num [timeSlice, tmLe, constMetricEx, monthVals, groupMean, groupStd,
      nmean, nvar, nstd, nsum, nonNan, RVal.div, RVal.add, RVal.sub, RVal.neg,
      RVal.mul, RVal.sqrt, RVal.isNan, List.filter, List.map, List.foldr,
      Real.sqrt_zero]
  rw [hval] at h
  exact h

/-- C6 (confirmed): the wind threshold series assigns to every day `d`
    of the series exactly `mean(doy d) + 1.28 * sqrt(var(doy d))`, the
    day-of-year mean plus 1.28 standard deviations of the
    reference-period daily wind power grouped by day-of-year — a
    parametric formula, not an empirical percentile — and the wind-power
    series assigns to every day `0.5 * 1.23 * (daily mean of
    sqrt(u10² + v10²))³` (`windSpeed` is `sqrt(u·u + v·v)`). -/
theorem c6_wind_threshold_formula (l : List WindObs) (r1 r2 : DayW) (d : DayW)
    (hd : d ∈ windDays l) :
    (d, RVal.add (nmean (doyGroup l r1 r2 d.doy))
        (RVal.mul (.fin 1.28) (RVal.sqrt (nvar (doyGroup l r1 r2 d.doy)))))
      ∈ wind_thresholds l r1 r2 ∧
    (d, RVal.mul (.fin (0.5 * 1.23))
        (RVal.mul (nmean ((l.filter (fun o => o.day == d)).map windSpeed))
          (RVal.mul (nmean ((l.filter (fun o => o.day == d)).map windSpeed))
            (nmean ((l.filter (fun o => o.day == d)).map windSpeed)))))
      ∈ wind_power l :=
  ⟨List.mem_map_of_mem
      (fun dd => (dd, windThresholdVal l r1 r2 dd)) hd,
   List.mem_map_of_mem
      (fun dd => (dd, windPowerVal l dd)) hd⟩

/-- Witness for C6: on the single (3, 4)-observation record, the calm
    day's threshold and wind-power entries carry the two formulas. -/
theorem c6_wind_threshold_formula_witness :
    (calmDay, RVal.add (nmean (doyGroup windObsEx calmDay calmDay calmDay.doy))
        (RVal.mul (.fin 1.28) (RVal.sqrt (nvar (doyGroup windObsEx calmDay calmDay calmDay.doy)))))
      ∈ wind_thresholds windObsEx calmDay calmDay ∧
    (calmDay, RVal.mul (.fin (0.5 * 1.23))
        (RVal.mul (nmean ((windObsEx.filter (fun o => o.day == calmDay)).map windSpeed))
          (RVal.mul (nmean ((windObsEx.filter (fun o => o.day == calmDay)).map windSpeed))
            (nmean ((windObsEx.filter (fun o => o.day == calmDay)).map windSpeed)))))
      ∈ wind_power windObsEx :=
  c6_wind_threshold_formula windObsEx calmDay calmDay calmDay
    (by simp [windDays, windObsEx])

/-- Removing the single zero-valued entry of one day from a keyed
    indicator series leaves the monthly sum unchanged and lowers the
    monthly count of the day's month by exactly one. -/
theorem windMonth_key_zero (L : List (DayW × ℤ)) (d : DayW)
    (hcount : (L.filter (fun p => p.1 == d)).length = 1)
    (hzero : ∀ p ∈ L, p.1 = d → p.2 = 0) :
    windMonthSum L (d.year, d.month) =
      windMonthSum (L.filter (fun p => !(p.1 == d))) (d.year, d.month) ∧
    windMonthCount L (d.year, d.month) =
      windMonthCount (L.filter (fun p => !(p.1 == d))) (d.year, d.month) + 1 := by
  induction L with
  | nil => simp at hcount
  | cons p t IH =>
    cases hpd : (p.1 == d) with
    | true =>
      have hpd' : p.1 = d := eq_of_beq hpd
      have hz : p.2 = 0 := hzero p (List.mem_cons_self p t) hpd'
      have hcount' : (t.filter (fun q => q.1 == d)).length = 0 := by
        rw [List.filter_cons] at hcount
        simp only [hpd, eq_self_iff_true, if_true, List.length_cons] at hcount
        omega
      have hnot : ∀ q ∈ t, (q.1 == d) = false := by
        have hnil := List.filter_eq_nil.mp (List.length_eq_zero.mp hcount')
        intro q hq
        exact Bool.eq_false_iff.mpr (hnil q hq)
      have hfilt : t.filter (fun q => !(q.1 == d)) = t :=
        List.filter_eq_self.mpr (fun q hq => by rw [hnot q hq]; rfl)
      have hLfilt : (p :: t).filter (fun q => !(q.1 == d)) = t := by
        rw [List.filter_cons]
        simp only [hpd, Bool.not_true, Bool.false_eq_true, if_false, hfilt]
      have hpm : ((p.1.year, p.1.month) == ((d.year, d.month) : Tm)) = true := by
        rw [hpd']
        exact beq_self_eq_true _
      rw [hLfilt]
      constructor
      · rw [windMonthSum, windMonthSum, windMonthEntries, windMonthEntries,
          List.filter_cons]
        simp only [hpm, eq_self_iff_true, if_true, List.map_cons, List.sum_cons, hz,
          zero_add]
      · rw [windMonthCount, windMonthCount, windMonthEntries, windMonthEntries,
          List.filter_cons]
        simp only [hpm, eq_self_iff_true, if_true, List.length_cons]
    | false =>
      have hcount' : (t.filter (fun q => q.1 == d)).length = 1 := by
        rw [List.filter_cons] at hcount
        simpa only [hpd, Bool.false_eq_true, if_false] using hcount
      obtain ⟨IH1, IH2⟩ := IH hcount'
        (fun q hq hqd => hzero q (List.mem_cons_of_mem p hq) hqd)
      rw [windMonthSum, windMonthSum, windMonthEntries, windMonthEntries] at IH1
      rw [windMonthCount, windMonthCount, windMonthEntries, windMonthEntries] at IH2
      have hLfilt : (p :: t).filter (fun q => !(q.1 == d))
          = p :: t.filter (fun q => !(q.1 == d)) := by
        rw [List.filter_cons]
        simp only [hpd, Bool.not_false, if_true]
      rw [hLfilt]
      constructor
      · rw [windMonthSum, windMonthSum, windMonthEntries, windMonthEntries,
          List.filter_cons, List.filter_cons]
        cases hpm : ((p.1.year, p.1.month) == ((d.year, d.month) : Tm)) with
        | false =>
          simp only [hpm, Bool.false_eq_true, if_false]
          exact IH1
        | true =>
          simp only [hpm, eq_self_iff_true, if_true, List.map_cons, List.sum_cons]
          rw [IH1]
      · rw [windMonthCount, windMonthCount, windMonthEntries, windMonthEntries,
          List.filter_cons, List.filter_cons]
        cases hpm : ((p.1.year, p.1.month) == ((d.year, d.month) : Tm)) with
        | false =>
          simp only [hpm, Bool.false_eq_true, if_false]
          exact IH2
        | true =>
          simp only [hpm, eq_self_iff_true, if_true, List.length_cons]
          omega

/-- C10 (confirmed): a day whose wind power exactly equals its
    day-of-year threshold gets indicator 0 (the `xr.where` inequality is
    strict), so it is present in the indicator series as a
    non-exceedance — it contributes 0 to the monthly exceedance
    numerator (removing it leaves the sum unchanged) while still being
    counted in the monthly denominator (removing it lowers the count by
    one), and it is never treated as missing. -/
theorem c10_wind_equality_is_nonexceedance (l : List WindObs) (r1 r2 : DayW)
    (d : DayW) (x : ℝ) (hd : d ∈ windDays l)
    (hw : windPowerVal l d = .fin x) (ht : windThresholdVal l r1 r2 d = .fin x) :
    (d, (0 : ℤ)) ∈ days_above_thresholds l r1 r2 ∧
    windMonthSum (days_above_thresholds l r1 r2) (d.year, d.month) =
      windMonthSum ((days_above_thresholds l r1 r2).filter (fun p => !(p.1 == d)))
        (d.year, d.month) ∧
    windMonthCount (days_above_thresholds l r1 r2) (d.year, d.month) =
      windMonthCount ((days_above_thresholds l r1 r2).filter (fun p => !(p.1 == d)))
        (d.year, d.month) + 1 := by
  have hval : whereNegR (RVal.sub (windThresholdVal l r1 r2 d) (windPowerVal l d)) = 0 := by
    rw [ht, hw, rval_sub_fin, sub_self]
    simp [whereNegR]
  have hmem : (d, (0 : ℤ)) ∈ days_above_thresholds l r1 r2 := by
    rw [days_above_thresholds, ← hval]
    exact List.mem_map_of_mem _ hd
  have hnodup : (windDays l).Nodup := List.nodup_dedup _
  have hcount : ((days_above_thresholds l r1 r2).filter (fun p => p.1 == d)).length = 1 := by
    rw [days_above_thresholds, List.filter_map, List.length_map]
    have hfc : List.filter ((fun p => (p.1 == d)) ∘ (fun dd =>
        (dd, whereNegR (RVal.sub (windThresholdVal l r1 r2 dd) (windPowerVal l dd)))))
        (windDays l)
        = List.filter (fun dd => dd == d) (windDays l) :=
      List.filter_congr (fun dd _ => rfl)
    rw [hfc, ← List.countP_eq_length_filter]
    show List.count d (windDays l) = 1
    exact List.count_eq_one_of_mem hnodup hd
  have hzero : ∀ p ∈ days_above_thresholds l r1 r2, p.1 = d → p.2 = 0 := by
    intro p hp hpd
    rw [days_above_thresholds, List.mem_map] at hp
    obtain ⟨dd, -, rfl⟩ := hp
    have hdd : dd = d := hpd
    subst hdd
    exact hval
  obtain ⟨hs, hc⟩ := windMonth_key_zero (days_above_thresholds l r1 r2) d hcount hzero
  exact ⟨hmem, hs, hc⟩

/-- Witness for C10: on the calm one-day record (u10 = v10 = 0), wind
    power and threshold are both exactly 0, and the day is recorded as a
    non-exceedance that still counts in the denominator. -/
theorem c10_wind_equality_is_nonexceedance_witness :
    (calmDay, (0 : ℤ)) ∈ days_above_thresholds calmObs calmDay calmDay ∧
    windMonthSum (days_above_thresholds calmObs calmDay calmDay)
        (calmDay.year, calmDay.month) =
      windMonthSum ((days_above_thresholds calmObs calmDay calmDay).filter
        (fun p => !(p.1 == calmDay))) (calmDay.year, calmDay.month) ∧
    windMonthCount (days_above_thresholds calmObs calmDay calmDay)
        (calmDay.year, calmDay.month) =
      windMonthCount ((days_above_thresholds calmObs calmDay calmDay).filter
        (fun p => !(p.1 == calmDay))) (calmDay.year, calmDay.month) + 1 :=
  c10_wind_equality_is_nonexceedance calmObs calmDay calmDay calmDay 0
    (by simp [windDays, calmObs])
    (by norm_num [windPowerVal, dailyMeanWs, windSpeed, calmObs, calmDay, nmean, nsum,
      nonNan, RVal.mul, RVal.add, RVal.sqrt, RVal.div, RVal.isNan, List.filter,
      List.map, List.foldr, Real.sqrt_zero])
    (by norm_num [windThresholdVal, doyGroup, windPowerReference, wind_power, windDays,
      windPowerVal, dailyMeanWs, windSpeed, calmObs, calmDay, dayLe, nmean, nstd, nvar,
      nsum, nonNan, RVal.mul, RVal.add, RVal.sub, RVal.neg, RVal.sqrt, RVal.div,
      RVal.isNan, List.filter, List.map, List.foldr, List.dedup, Real.sqrt_zero])

end AciSpec